import Mathlib

/-!
Shallow embedding of the validated-query caching and execution-routing engine
of a business-intelligence backend (the ValidatedQueriesService class and its
database helpers).  Pure string manipulation (placeholder substitution, cache
keys, JSON canonicalisation, MD5) is translated into executable Lean functions;
the stateful execution paths (cache read-through, backend routing with retry
and fallback, invalidation) are modelled by explicit state passing over a
record of the meta database and the ephemeral key-value store, with the
behaviour of the external collaborators (the two relational backends, the
warehouse, the key-value store) supplied as an environment record.  JavaScript
regular-expression scans are modelled by fuel-indexed structural scanners; the
fuel passed by each wrapper is an upper bound on the number of scan steps, so
the zero-fuel branch is never reached.
-/

set_option maxRecDepth 10000

abbrev Chars := List Char

/-- The single-quote character, used for SQL string literal quoting. -/
def sqc : Char := Char.ofNat 39

/-- The single-quote as a one-character string. -/
def sqs : String := String.mk [sqc]

/-- Opening curly brace character. -/
def lbc : Char := Char.ofNat 123

/-- Closing curly brace character. -/
def rbc : Char := Char.ofNat 125

/-- Whitespace class of JavaScript regular expressions and of
String.prototype.trim (space, tab, line terminators, and the Unicode
space separators). -/
def isJsSpace (c : Char) : Bool :=
  let n := c.toNat
  n = 9 || n = 10 || n = 11 || n = 12 || n = 13 || n = 32 || n = 160 || n = 5760 ||
  (8192 ≤ n && n ≤ 8202) || n = 8232 || n = 8233 || n = 8239 || n = 8287 ||
  n = 12288 || n = 65279

/-- First character of a placeholder identifier: [a-zA-Z_]. -/
def isIdentStart (c : Char) : Bool :=
  (('a' ≤ c && c ≤ 'z') || ('A' ≤ c && c ≤ 'Z') || c = '_')

/-- Later characters of a placeholder identifier: [a-zA-Z0-9_].  This is also
the word class used by the word-boundary assertions of the warehouse-dialect
regular expressions. -/
def isIdentChar (c : Char) : Bool :=
  isIdentStart c || ('0' ≤ c && c ≤ '9')

/-- Characters of a column reference: [a-zA-Z0-9_.]. -/
def isIdentCharDot (c : Char) : Bool :=
  isIdentChar c || c = '.'

/-- JavaScript trim: drop leading and trailing whitespace. -/
def jsTrim (s : Chars) : Chars :=
  ((s.dropWhile isJsSpace).reverse.dropWhile isJsSpace).reverse

/-- JavaScript split on a single comma: every occurrence splits, empty pieces
are kept. -/
def splitOnComma : Chars → List Chars
  | [] => [[]]
  | c :: cs =>
    let rest := splitOnComma cs
    if c = ',' then [] :: rest
    else match rest with
      | [] => [[c]]
      | r :: rs => (c :: r) :: rs

/-- Escape embedded single quotes by doubling them, as the service does with
value.replace of a single quote by two single quotes. -/
def escSq (s : Chars) : Chars :=
  s.flatMap (fun c => if c = sqc then [sqc, sqc] else [c])

/-- All placeholder names found by matchAll with the pattern
colon [a-zA-Z_][a-zA-Z0-9_]*, in order, duplicates kept.  Fuel bounds the
number of scan steps; the length of the input suffices. -/
def matchAllPlaceholdersF : Nat → Chars → List Chars
  | 0, _ => []
  | _ + 1, [] => []
  | fuel + 1, ':' :: cs =>
    match cs with
    | [] => []
    | c :: cs2 =>
      if isIdentStart c then
        (c :: cs2.takeWhile isIdentChar) :: matchAllPlaceholdersF fuel (cs2.dropWhile isIdentChar)
      else matchAllPlaceholdersF fuel (c :: cs2)
  | fuel + 1, _ :: cs => matchAllPlaceholdersF fuel cs

def matchAllPlaceholders (s : Chars) : List Chars :=
  matchAllPlaceholdersF s.length s

/-- All placeholder names found by the warehouse-dialect matchAll, whose
pattern adds a negative lookbehind rejecting a preceding colon (so that a
PostgreSQL type cast is not read as a placeholder) and a trailing word
boundary (vacuous after a greedy identifier run).  The prev argument carries
the character preceding the scan position in the source string. -/
def matchAllPlaceholdersRSF : Nat → Option Char → Chars → List Chars
  | 0, _, _ => []
  | _ + 1, _, [] => []
  | fuel + 1, prev, ':' :: cs =>
    if prev = some ':' then matchAllPlaceholdersRSF fuel (some ':') cs
    else match cs with
      | [] => []
      | c :: cs2 =>
        if isIdentStart c then
          (c :: cs2.takeWhile isIdentChar) ::
            matchAllPlaceholdersRSF fuel (some c) (cs2.dropWhile isIdentChar)
        else matchAllPlaceholdersRSF fuel (some ':') (c :: cs2)
  | fuel + 1, _, c :: cs => matchAllPlaceholdersRSF fuel (some c) cs

def matchAllPlaceholdersRS (s : Chars) : List Chars :=
  matchAllPlaceholdersRSF s.length none s

/-- Global replacement of a literal pattern, leftmost first, non-overlapping,
as String.replace with a global regular expression free of metacharacters.
The replacement string is inserted verbatim (the replacements built by the
service contain no dollar-sign substitution patterns). -/
def replaceAllSubF (pat repl : Chars) : Nat → Chars → Chars
  | 0, s => s
  | _ + 1, [] => []
  | fuel + 1, c :: cs =>
    if pat ≠ [] && pat.isPrefixOf (c :: cs) then
      repl ++ replaceAllSubF pat repl fuel (cs.drop (pat.length - 1))
    else c :: replaceAllSubF pat repl fuel cs

def replaceAllSub (pat repl s : Chars) : Chars :=
  replaceAllSubF pat repl s.length s

/-- Global replacement, warehouse dialect, of the literal colon-key pattern
guarded by a negative lookbehind for a colon and a trailing word boundary. -/
def replaceAllRSF (key repl : Chars) : Nat → Option Char → Chars → Chars
  | 0, _, s => s
  | _ + 1, _, [] => []
  | fuel + 1, prev, c :: cs =>
    if c = ':' && prev ≠ some ':' && key.isPrefixOf cs &&
        !((cs.drop key.length).headD ' ' |> isIdentChar) &&
        key ≠ [] then
      repl ++ replaceAllRSF key repl fuel (some (key.getLastD ':')) (cs.drop key.length)
    else c :: replaceAllRSF key repl fuel (some c) cs

def replaceAllRS (key repl s : Chars) : Chars :=
  replaceAllRSF key repl s.length none s

/-- Case-insensitive character comparison, as under the i flag. -/
def ciEq (a b : Char) : Bool := a.toLower = b.toLower

/-- Case-insensitive prefix test. -/
def ciPrefix : Chars → Chars → Bool
  | [], _ => true
  | _ :: _, [] => false
  | a :: as, b :: bs => ciEq a b && ciPrefix as bs

/-- Expect a case-insensitive literal token, returning the rest. -/
def expectCI (tok s : Chars) : Option Chars :=
  if ciPrefix tok s then some (s.drop tok.length) else none

/-- Expect at least one whitespace character, returning the rest. -/
def expectWs1 (s : Chars) : Option Chars :=
  match s with
  | c :: cs => if isJsSpace c then some (cs.dropWhile isJsSpace) else none
  | [] => none

/-- Try to match, at the head of the string, one occurrence of the equality
pattern: a captured group of a column reference, optional whitespace, an
equals sign and optional whitespace, followed by the literal colon-key.  The
wb flag adds the trailing word boundary of the warehouse-dialect variant (the
negative lookbehind of that variant is vacuous there, since the character
before the colon is an equals sign or whitespace).  Returns the captured
group and the rest of the string after the match. -/
def matchEqAt (wb : Bool) (key : Chars) : Chars → Option (Chars × Chars)
  | [] => none
  | c :: cs =>
    if isIdentStart c then
      let ident := c :: cs.takeWhile isIdentCharDot
      let rest1 := cs.dropWhile isIdentCharDot
      let ws1 := rest1.takeWhile isJsSpace
      let rest2 := rest1.dropWhile isJsSpace
      match rest2 with
      | '=' :: rest3 =>
        let ws2 := rest3.takeWhile isJsSpace
        let rest4 := rest3.dropWhile isJsSpace
        if (':' :: key).isPrefixOf rest4 &&
            (!wb || !isIdentChar ((rest4.drop (key.length + 1)).headD ' ')) then
          some (ident ++ ws1 ++ '=' :: ws2, rest4.drop (key.length + 1))
        else none
      | _ => none
    else none

/-- Global rewrite of the equality pattern: each match of column = colon-key
is replaced by the captured group followed by the parenthesised quoted value
list, leftmost first, non-overlapping. -/
def replaceEqAllF (wb : Bool) (key qv : Chars) : Nat → Chars → Chars
  | 0, s => s
  | _ + 1, [] => []
  | fuel + 1, c :: cs =>
    match matchEqAt wb key (c :: cs) with
    | some (g1, rest) => g1 ++ '(' :: (qv ++ [')']) ++ replaceEqAllF wb key qv fuel rest
    | none => c :: replaceEqAllF wb key qv fuel cs

def replaceEqAll (wb : Bool) (key qv s : Chars) : Chars :=
  replaceEqAllF wb key qv s.length s

/-- Try to match, at the head of the string, the NULL-guard pattern: an
opening parenthesis, the literal colon-key, the tokens IS NULL OR separated
by whitespace, a captured group of a column reference with an equals sign,
the literal colon-key again and a closing parenthesis; everything
case-insensitively.  Returns the captured group and the rest after the
match. -/
def matchNullCheckAt (key : Chars) (s : Chars) : Option (Chars × Chars) :=
  match s with
  | '(' :: cs =>
    (expectCI (':' :: key) cs).bind fun r1 =>
    (expectWs1 r1).bind fun r2 =>
    (expectCI ['I', 'S'] r2).bind fun r3 =>
    (expectWs1 r3).bind fun r4 =>
    (expectCI ['N', 'U', 'L', 'L'] r4).bind fun r5 =>
    (expectWs1 r5).bind fun r6 =>
    (expectCI ['O', 'R'] r6).bind fun r7 =>
    (expectWs1 r7).bind fun r8 =>
    match r8 with
    | c :: cs8 =>
      if isIdentStart c then
        let ident := c :: cs8.takeWhile isIdentCharDot
        let r9 := cs8.dropWhile isIdentCharDot
        let ws1 := r9.takeWhile isJsSpace
        let r10 := r9.dropWhile isJsSpace
        match r10 with
        | '=' :: r11 =>
          let ws2 := r11.takeWhile isJsSpace
          let r12 := r11.dropWhile isJsSpace
          (expectCI (':' :: key) r12).bind fun r13 =>
          match r13 with
          | ')' :: r14 => some (ident ++ ws1 ++ '=' :: ws2, r14)
          | _ => none
        | _ => none
      else none
    | [] => none
  | _ => none

/-- Global rewrite of the NULL-guard pattern: each match is replaced by the
captured group followed by IN and the parenthesised quoted value list. -/
def replaceNullCheckAllF (key qv : Chars) : Nat → Chars → Chars
  | 0, s => s
  | _ + 1, [] => []
  | fuel + 1, c :: cs =>
    match matchNullCheckAt key (c :: cs) with
    | some (g1, rest) =>
      g1 ++ 'I' :: 'N' :: ' ' :: '(' :: (qv ++ [')']) ++ replaceNullCheckAllF key qv fuel rest
    | none => c :: replaceNullCheckAllF key qv fuel cs

def replaceNullCheckAll (key qv s : Chars) : Chars :=
  replaceNullCheckAllF key qv s.length s

/-- Global rewrite of bare warehouse table names: an occurrence of deliveries
or businesses delimited by word boundaries and not preceded by a dot is
prefixed with the schema name and a dot. -/
def replaceTablesF (schema : Chars) : Nat → Option Char → Chars → Chars
  | 0, _, s => s
  | _ + 1, _, [] => []
  | fuel + 1, prev, c :: cs =>
    let wordOk := match prev with
      | none => true
      | some p => !isIdentChar p && p ≠ '.'
    let tryWord : Chars → Bool := fun w =>
      wordOk && w.isPrefixOf (c :: cs) && !isIdentChar (((c :: cs).drop w.length).headD ' ')
    if tryWord "deliveries".data then
      schema ++ '.' :: "deliveries".data ++
        replaceTablesF schema fuel (some 's') ((c :: cs).drop 10)
    else if tryWord "businesses".data then
      schema ++ '.' :: "businesses".data ++
        replaceTablesF schema fuel (some 's') ((c :: cs).drop 10)
    else c :: replaceTablesF schema fuel (some c) cs

def replaceTables (schema s : Chars) : Chars :=
  replaceTablesF schema s.length none s

/-- Try to match, at the head of the string, an operator followed by optional
whitespace and the token NULL, case-insensitively; returns the rest. -/
def matchOpNullAt (op s : Chars) : Option Chars :=
  if op.isPrefixOf s then
    let r1 := (s.drop op.length).dropWhile isJsSpace
    if ciPrefix ['N', 'U', 'L', 'L'] r1 then some (r1.drop 4) else none
  else none

/-- Global rewrite of an operator-NULL pattern into a replacement phrase. -/
def replaceOpNullF (op repl : Chars) : Nat → Chars → Chars
  | 0, s => s
  | _ + 1, [] => []
  | fuel + 1, c :: cs =>
    match matchOpNullAt op (c :: cs) with
    | some rest => repl ++ replaceOpNullF op repl fuel rest
    | none => c :: replaceOpNullF op repl fuel cs

def replaceOpNull (op repl s : Chars) : Chars :=
  replaceOpNullF op repl s.length s

/-! MD5, as used by crypto.createHash over the UTF-8 bytes of the hashed
string, producing a lowercase hex digest with little-endian byte order per
state word. -/

/-- Truncate to a 32-bit word. -/
def w32 (n : Nat) : Nat := n % 4294967296

/-- Rotate a 32-bit word left by s bits (for x below 2 to the 32 and s
between 1 and 31); the two parts occupy disjoint bit ranges. -/
def rotl (x s : Nat) : Nat := w32 (x * 2 ^ s) + x / 2 ^ (32 - s)

/-- Bitwise complement on 32-bit words. -/
def mnot (x : Nat) : Nat := 4294967295 ^^^ x

/-- The 64 sine-derived round constants of MD5. -/
def md5K : List Nat :=
  [3614090360, 3905402710, 606105819, 3250441966,
   4118548399, 1200080426, 2821735955, 4249261313,
   1770035416, 2336552879, 4294925233, 2304563134,
   1804603682, 4254626195, 2792965006, 1236535329,
   4129170786, 3225465664, 643717713, 3921069994,
   3593408605, 38016083, 3634488961, 3889429448,
   568446438, 3275163606, 4107603335, 1163531501,
   2850285829, 4243563512, 1735328473, 2368359562,
   4294588738, 2272392833, 1839030562, 4259657740,
   2763975236, 1272893353, 4139469664, 3200236656,
   681279174, 3936430074, 3572445317, 76029189,
   3654602809, 3873151461, 530742520, 3299628645,
   4096336452, 1126891415, 2878612391, 4237533241,
   1700485571, 2399980690, 4293915773, 2240044497,
   1873313359, 4264355552, 2734768916, 1309151649,
   4149444226, 3174756917, 718787259, 3951481745]

/-- The per-round left-rotation amounts of MD5. -/
def md5S : List Nat :=
  [7, 12, 17, 22, 7, 12, 17, 22, 7, 12, 17, 22, 7, 12, 17, 22,
   5, 9, 14, 20, 5, 9, 14, 20, 5, 9, 14, 20, 5, 9, 14, 20,
   4, 11, 16, 23, 4, 11, 16, 23, 4, 11, 16, 23, 4, 11, 16, 23,
   6, 10, 15, 21, 6, 10, 15, 21, 6, 10, 15, 21, 6, 10, 15, 21]

/-- The round function of MD5, per round index. -/
def md5F (i b c d : Nat) : Nat :=
  if i < 16 then (b &&& c) ||| (mnot b &&& d)
  else if i < 32 then (d &&& b) ||| (mnot d &&& c)
  else if i < 48 then b ^^^ c ^^^ d
  else c ^^^ (b ||| mnot d)

/-- The message-word index of MD5, per round index. -/
def md5G (i : Nat) : Nat :=
  if i < 16 then i
  else if i < 32 then (5 * i + 1) % 16
  else if i < 48 then (3 * i + 5) % 16
  else (7 * i) % 16

/-- One MD5 round on the state quadruple. -/
def md5Round (M : Nat → Nat) (st : Nat × Nat × Nat × Nat) (i : Nat) :
    Nat × Nat × Nat × Nat :=
  match st with
  | (a, b, c, d) =>
    let tmp := w32 (md5F i b c d + a + md5K.getD i 0 + M (md5G i))
    (d, w32 (b + rotl tmp (md5S.getD i 0)), b, c)

/-- Process one 64-byte chunk. -/
def md5ProcessChunk (st : Nat × Nat × Nat × Nat) (chunk : List Nat) :
    Nat × Nat × Nat × Nat :=
  let M := fun j => chunk.getD (4 * j) 0 + chunk.getD (4 * j + 1) 0 * 256 +
    chunk.getD (4 * j + 2) 0 * 65536 + chunk.getD (4 * j + 3) 0 * 16777216
  match st, (List.range 64).foldl (md5Round M) st with
  | (a0, b0, c0, d0), (a, b, c, d) =>
    (w32 (a0 + a), w32 (b0 + b), w32 (c0 + c), w32 (d0 + d))

/-- MD5 padding: a 0x80 byte, zeros up to 56 mod 64, then the bit length as
eight little-endian bytes. -/
def md5Pad (msg : List Nat) : List Nat :=
  let len := msg.length
  let padLen := (120 - (len + 1) % 64) % 64
  msg ++ [128] ++ List.replicate padLen 0 ++
    (List.range 8).map (fun i => len * 8 / 2 ^ (8 * i) % 256)

/-- Split a byte list into chunks of 64; fuel bounds the number of chunks. -/
def chunksOf64 : Nat → List Nat → List (List Nat)
  | 0, _ => []
  | _ + 1, [] => []
  | fuel + 1, l => l.take 64 :: chunksOf64 fuel (l.drop 64)

/-- The MD5 state after absorbing a whole byte message. -/
def md5Digest (msg : List Nat) : Nat × Nat × Nat × Nat :=
  let padded := md5Pad msg
  (chunksOf64 (padded.length / 64) padded).foldl md5ProcessChunk
    (1732584193, 4023233417, 2562383102, 271733878)

def hexDigit (n : Nat) : Char := "0123456789abcdef".data.getD n '0'

def byteHex (b : Nat) : Chars := [hexDigit (b / 16), hexDigit (b % 16)]

/-- Hex rendering of one state word, little-endian byte order. -/
def wordHexLE (x : Nat) : Chars :=
  byteHex (x % 256) ++ byteHex (x / 256 % 256) ++ byteHex (x / 65536 % 256) ++
    byteHex (x / 16777216 % 256)

/-- The lowercase hex MD5 digest of a byte message. -/
def md5Hex (msg : List Nat) : String :=
  match md5Digest msg with
  | (a, b, c, d) => String.mk (wordHexLE a ++ wordHexLE b ++ wordHexLE c ++ wordHexLE d)

/-- UTF-8 encoding of one character. -/
def utf8Char (c : Char) : List Nat :=
  let n := c.toNat
  if n < 128 then [n]
  else if n < 2048 then [192 + n / 64, 128 + n % 64]
  else if n < 65536 then [224 + n / 4096, 128 + n / 64 % 64, 128 + n % 64]
  else [240 + n / 262144, 128 + n / 4096 % 64, 128 + n / 64 % 64, 128 + n % 64]

/-- UTF-8 encoding of a string, as crypto.createHash update performs on a
string argument. -/
def utf8Encode (s : String) : List Nat :=
  s.data.flatMap utf8Char

/-! The filter value model.  A filter map is a JavaScript object in insertion
order: an association list of string keys (unique in any physically
constructible map) to JSON-representable values. -/

inductive JsVal where
  | vnull : JsVal
  | vbool : Bool → JsVal
  | vnum : Int → JsVal
  | vstr : String → JsVal
deriving DecidableEq, Repr

abbrev Filters := List (String × JsVal)

/-- Property read on a JavaScript object: the value at the first (unique)
matching key, or undefined (none) when the key is absent. -/
def flookup (f : Filters) (k : String) : Option JsVal :=
  (f.find? (fun p => p.1 == k)).map (fun p => p.2)

/-- JSON string escaping of one character, as JSON.stringify performs. -/
def jsonEscapeChar (c : Char) : Chars :=
  if c = '"' then ['\\', '"']
  else if c = '\\' then ['\\', '\\']
  else if c = Char.ofNat 8 then ['\\', 'b']
  else if c = Char.ofNat 9 then ['\\', 't']
  else if c = Char.ofNat 10 then ['\\', 'n']
  else if c = Char.ofNat 12 then ['\\', 'f']
  else if c = Char.ofNat 13 then ['\\', 'r']
  else if c.toNat < 32 then ['\\', 'u', '0', '0', hexDigit (c.toNat / 16), hexDigit (c.toNat % 16)]
  else [c]

/-- JSON.stringify of one value. -/
def jsonStringifyVal : JsVal → Chars
  | JsVal.vnull => "null".data
  | JsVal.vbool true => "true".data
  | JsVal.vbool false => "false".data
  | JsVal.vnum n => (toString n).data
  | JsVal.vstr s => '"' :: s.data.flatMap jsonEscapeChar ++ ['"']

/-- JSON.stringify of an object, iterating the properties in order. -/
def jsonStringifyPairs (ps : Filters) : Chars :=
  lbc :: List.intercalate [',']
    (ps.map (fun p => '"' :: p.1.data.flatMap jsonEscapeChar ++ '"' :: ':' :: jsonStringifyVal p.2)) ++ [rbc]

/-! The sort applied by Object.keys(filters).sort() compares strings by
UTF-16 code units.  Each character is mapped to a packed key holding its
(surrogate-pair) code units, so that the lexicographic order on the mapped
lists is the JavaScript string order. -/

/-- Packed UTF-16 sort key of one character: the first code unit in the high
part, the second (low surrogate, or zero) in the low part. -/
def charKey (c : Char) : Nat :=
  let n := c.toNat
  if n < 65536 then n * 4294967296
  else (55296 + (n - 65536) / 1024) * 4294967296 + (56320 + (n - 65536) % 1024)

def strKey (s : String) : List Nat := s.data.map charKey

/-- The default comparator order of Array.prototype.sort on strings. -/
def jsKeyLe (a b : String) : Prop := strKey a ≤ strKey b

instance : DecidableRel jsKeyLe := fun a b =>
  inferInstanceAs (Decidable (strKey a ≤ strKey b))

/-- Object.keys(filters).sort(): the keys in ascending JavaScript string
order. -/
def sortKeys (l : List String) : List String := List.insertionSort jsKeyLe l

/-- The reduce step of generateCacheKey: rebuild the filter object with its
keys in sorted order (each key reads its value from the original object). -/
def sortedFilters (filters : Filters) : Filters :=
  (sortKeys (filters.map (fun p => p.1))).map
    (fun k => (k, (flookup filters k).getD JsVal.vnull))

/-- generateCacheKey: the query id and the MD5 hex digest of the JSON
encoding of the key-sorted filter object, in the validated-query cache key
namespace. -/
def generateCacheKey (qid : String) (filters : Filters) : String :=
  "validated_query:" ++ qid ++ ":" ++
    md5Hex (utf8Encode (String.mk (jsonStringifyPairs (sortedFilters filters))))

/-- generateFilterCacheKey: the filter-options cache key namespace. -/
def generateFilterCacheKey (sql_param : String) : String :=
  "filter_options:" ++ sql_param

/-! Date rendering: new Date(ms).toISOString().split(T)[0] yields the UTC
calendar date in YYYY-MM-DD form.  Milliseconds are modelled as a natural
number (times at or after the epoch). -/

/-- Gregorian civil date (year, month, day) from a day count since
1970-01-01, by the standard era decomposition. -/
def civilFromDays (z : Nat) : Nat × Nat × Nat :=
  let z0 := z + 719468
  let era := z0 / 146097
  let doe := z0 % 146097
  let yoe := (doe - doe / 1460 + doe / 36524 - doe / 146096) / 365
  let y := yoe + era * 400
  let doy := doe - (365 * yoe + yoe / 4 - yoe / 100)
  let mp := (5 * doy + 2) / 153
  let d := doy - (153 * mp + 2) / 5 + 1
  let m := if mp < 10 then mp + 3 else mp - 9
  (if m ≤ 2 then y + 1 else y, m, d)

def pad2 (n : Nat) : Chars :=
  if n < 10 then '0' :: (Nat.repr n).data else (Nat.repr n).data

def pad4 (n : Nat) : Chars :=
  if n < 10 then '0' :: '0' :: '0' :: (Nat.repr n).data
  else if n < 100 then '0' :: '0' :: (Nat.repr n).data
  else if n < 1000 then '0' :: (Nat.repr n).data
  else (Nat.repr n).data

/-- The date part of the ISO string for a day count since the epoch. -/
def dateStrOfDays (z : Nat) : String :=
  match civilFromDays z with
  | (y, m, d) => String.mk (pad4 y ++ '-' :: pad2 m ++ '-' :: pad2 d)

/-- The date part of the ISO string for a millisecond timestamp. -/
def dateStrOfMs (ms : Nat) : String := dateStrOfDays (ms / 86400000)

/-- Milliseconds of the trailing 30-day window. -/
def thirtyDaysMs : Nat := 2592000000

/-- applyDefaultFilters: the returned object literal lists start_date and
end_date first, bound to the filter value or else to the 30-day default, and
then spreads the caller filters over it.  Since the spread is last, a
start_date or end_date key present in the input (with any value, null and
empty included) keeps its input value and its first-two position, and only
an absent key receives the default; the remaining input keys follow in their
insertion order. -/
def applyDefaultFilters (nowMs : Nat) (filters : Filters) : Filters :=
  let startDefault := dateStrOfMs (nowMs - thirtyDaysMs)
  let endDefault := dateStrOfMs nowMs
  ("start_date", (flookup filters "start_date").getD (JsVal.vstr startDefault)) ::
  ("end_date", (flookup filters "end_date").getD (JsVal.vstr endDefault)) ::
  filters.filter (fun p => p.1 != "start_date" && p.1 != "end_date")

/-! The placeholder substitution engine. -/

/-- One iteration of the replacement loop of replacePlaceholders, for one
placeholder name found in the original SQL: absent, null and empty values
substitute the literal NULL; a comma-carrying string value splits into a
trimmed, non-empty value list and rewrites the equality pattern and then the
NULL-guard pattern with the quoted list; any other string substitutes a
quoted escaped literal; other values substitute their string rendering. -/
def substPlaceholder (filters : Filters) (processed : Chars) (key : Chars) : Chars :=
  let placeholder := ':' :: key
  match flookup filters (String.mk key) with
  | none | some JsVal.vnull => replaceAllSub placeholder "NULL".data processed
  | some (JsVal.vstr s) =>
    if s = "" then replaceAllSub placeholder "NULL".data processed
    else if s.data.contains ',' then
      let values := ((splitOnComma s.data).map jsTrim).filter (fun v => !v.isEmpty)
      if values.isEmpty then replaceAllSub placeholder "NULL".data processed
      else
        let qv := List.intercalate [',', ' '] (values.map (fun v => sqc :: (escSq v ++ [sqc])))
        replaceNullCheckAll key qv (replaceEqAll false key qv processed)
    else replaceAllSub placeholder (sqc :: (escSq s.data ++ [sqc])) processed
  | some (JsVal.vnum n) => replaceAllSub placeholder (toString n).data processed
  | some (JsVal.vbool b) => replaceAllSub placeholder (toString b).data processed

/-- replacePlaceholders: fold the substitution over every placeholder name
found in the original SQL text, duplicates processed again. -/
def replacePlaceholders (sql : String) (filters : Filters) : String :=
  String.mk ((matchAllPlaceholders sql.data).foldl (substPlaceholder filters) sql.data)

/-- One iteration of the warehouse-dialect replacement loop: as the standard
one, but plain substitutions guard against type-cast colons with the
negative lookbehind and require a trailing word boundary; the two
multi-select rewrites use the warehouse-dialect equality pattern and the
same NULL-guard pattern (whose added lookbehinds are vacuous). -/
def substPlaceholderRS (filters : Filters) (processed : Chars) (key : Chars) : Chars :=
  match flookup filters (String.mk key) with
  | none | some JsVal.vnull => replaceAllRS key "NULL".data processed
  | some (JsVal.vstr s) =>
    if s = "" then replaceAllRS key "NULL".data processed
    else if s.data.contains ',' then
      let values := ((splitOnComma s.data).map jsTrim).filter (fun v => !v.isEmpty)
      if values.isEmpty then replaceAllRS key "NULL".data processed
      else
        let qv := List.intercalate [',', ' '] (values.map (fun v => sqc :: (escSq v ++ [sqc])))
        replaceNullCheckAll key qv (replaceEqAll true key qv processed)
    else replaceAllRS key (sqc :: (escSq s.data ++ [sqc])) processed
  | some (JsVal.vnum n) => replaceAllRS key (toString n).data processed
  | some (JsVal.vbool b) => replaceAllRS key (toString b).data processed

/-- replacePlaceholdersForRedshift: the warehouse-dialect substitution over
every placeholder found by the lookbehind-guarded scan of the original
SQL. -/
def replacePlaceholdersForRedshift (sql : String) (filters : Filters) : String :=
  String.mk ((matchAllPlaceholdersRS sql.data).foldl (substPlaceholderRS filters) sql.data)

/-- ensureRedshiftParameterQuoting: normalize comparisons with NULL; the
equality rewrite runs first, then the two inequality rewrites. -/
def ensureRedshiftParameterQuoting (s : Chars) : Chars :=
  replaceOpNull ['<', '>'] "IS NOT NULL".data
    (replaceOpNull ['!', '='] "IS NOT NULL".data
      (replaceOpNull ['='] "IS NULL".data s))

/-- applyRedshiftSchemaPrefix: substitute the schema placeholder, qualify
bare warehouse table names with the schema (an environment setting,
defaulting to public in the source), and normalize NULL comparisons. -/
def applyRedshiftSchemaPrefix (schema : String) (sql : String) : String :=
  String.mk (ensureRedshiftParameterQuoting
    (replaceTables schema.data (replaceAllSub "${schema}".data schema.data sql.data)))

/-- Substring containment, as String.prototype.includes. -/
def hasSub (pat : Chars) : Chars → Bool
  | [] => pat.isEmpty
  | c :: cs => pat.isPrefixOf (c :: cs) || hasSub pat cs

/-- String.prototype.includes on strings. -/
def strIncludes (s pat : String) : Bool := hasSub pat.data s.data

/-- The analytics-table heuristic: the original, unrendered SQL text contains
one of the analytic table names or dialect markers. -/
def usesAnalytics (s : String) : Bool :=
  strIncludes s "deliveries" || strIncludes s "businesses" ||
  strIncludes s "TO_CHAR" || strIncludes s "::numeric" ||
  strIncludes s "${schema}"

/-! The data model of the service: the query catalogue, the durable snapshot
table and the invalidation log live in the meta database; the ephemeral
cache is the key-value store.  Result row sets are modelled as the parsed
JSON values they round-trip through (the store holds JSON.stringify of the
rows and reads return JSON.parse of the stored string). -/

abbrev Row := List (String × JsVal)

abbrev Rows := List Row

structure ValidatedQuery where
  id : String
  name : String
  scope : String
  sql_text : String
  chart_hint : String
  validated_by : String
  active : Bool
deriving DecidableEq, Repr

structure ValidatedResult where
  qid : String
  run_stamp : Nat
  filter_json : Filters
  result_json : Rows
deriving DecidableEq, Repr

structure CacheInvalidation where
  qid : String
  filter_hash : String
  reason : String
deriving DecidableEq, Repr

structure RedisEntry where
  key : String
  value : Rows
  ttl : Nat
deriving DecidableEq, Repr

structure DbState where
  validated_queries : List ValidatedQuery
  validated_results : List ValidatedResult
  cache_invalidations : List CacheInvalidation
deriving DecidableEq, Repr

structure St where
  db : DbState
  redisKv : List RedisEntry
deriving DecidableEq, Repr

/-- The environment of one request: the clock, the warehouse schema setting,
whether a warehouse connection is configured, the (deterministic) behaviour
of each backend on a given SQL text — the warehouse indexed additionally by
the attempt number of the retry loop — and whether the key-value store
currently completes reads and writes or fails them. -/
structure Env where
  nowMs : Nat
  schema : String
  redshiftAvailable : Bool
  redshiftAttempt : Nat → String → Except String Rows
  deliveriesRun : String → Except String Rows
  mainRun : String → Except String Rows
  redisReadOk : Bool
  redisWriteOk : Bool
  snapshotOk : Bool

/-- One observable backend interaction of an execution. -/
inductive Call where
  | redshift : Nat → String → Call
  | deliveries : String → Call
  | main : String → Call
  | wait : Nat → Call
deriving DecidableEq, Repr

/-- The query-result cache TTL (24 hours, in seconds). -/
def CACHE_TTL : Nat := 24 * 60 * 60

/-- The filter-options cache TTL (12 hours, in seconds). -/
def FILTER_CACHE_TTL : Nat := 12 * 60 * 60

/-- Value of a key in the ephemeral store, if present. -/
def redisLookup (st : St) (k : String) : Option Rows :=
  (st.redisKv.find? (fun e => e.key == k)).map (fun e => e.value)

/-- redis.get: returns the stored value or a miss, or rejects when the store
is failing; the call in executeValidatedQuery is not guarded by any
try/catch. -/
def redisGet (env : Env) (st : St) (k : String) : Except String (Option Rows) :=
  if env.redisReadOk then Except.ok (redisLookup st k) else Except.error "redis get failed"

/-- redis.setEx: store a value under a key with a TTL, overwriting. -/
def redisSetEx (st : St) (k : String) (ttl : Nat) (v : Rows) : St :=
  { st with redisKv := ⟨k, v, ttl⟩ :: st.redisKv.filter (fun e => !(e.key == k)) }

/-- Catalogue lookup by id among active queries. -/
def getValidatedQuery (db : DbState) (id : String) : Option ValidatedQuery :=
  db.validated_queries.find? (fun q => q.id == id && q.active)

/-- Catalogue lookup by unique name among active queries. -/
def getValidatedQueryByName (db : DbState) (name : String) : Option ValidatedQuery :=
  db.validated_queries.find? (fun q => q.name == name && q.active)

/-- Catalogue lookup by id first, then by name. -/
def getValidatedQueryByIdOrName (db : DbState) (idf : String) : Option ValidatedQuery :=
  match getValidatedQuery db idf with
  | some q => some q
  | none => getValidatedQueryByName db idf

/-- cacheResults: write the rows to the ephemeral store under the cache key
with the result TTL, then upsert a durable snapshot row keyed by the query
id and the run timestamp.  Each of the two writes is wrapped in its own
try/catch in the source, so a failing write leaves the request unaffected
and the state unchanged. -/
def cacheResults (env : Env) (st : St) (qid : String) (filters : Filters) (results : Rows) : St :=
  let cacheKey := generateCacheKey qid filters
  let st1 := if env.redisWriteOk then redisSetEx st cacheKey CACHE_TTL results else st
  if env.snapshotOk then
    { st1 with db := { st1.db with validated_results :=
        if (st1.db.validated_results.find?
            (fun r => r.qid == qid && r.run_stamp == env.nowMs)).isSome then
          st1.db.validated_results.map (fun r =>
            if r.qid == qid && r.run_stamp == env.nowMs then
              { r with result_json := results } else r)
        else st1.db.validated_results ++ [⟨qid, env.nowMs, filters, results⟩] } }
  else st1

/-- The retry loop of executeRedshiftQueryWithRetry, structurally recursive
on the number of remaining attempts: try the current attempt; on failure,
sleep with exponential backoff when an attempt remains, and rethrow the last
error after the final one. -/
def redshiftRetryGo (env : Env) (sql : String) (maxRetries : Nat) :
    Nat → Nat → Option String → Except String Rows × List Call
  | _, 0, lastErr =>
    (Except.error (lastErr.getD "Redshift query failed after all retry attempts"), [])
  | attempt, remaining + 1, _ =>
    match env.redshiftAttempt attempt sql with
    | Except.ok r => (Except.ok r, [Call.redshift attempt sql])
    | Except.error e =>
      let waits := if attempt < maxRetries then [Call.wait (2 ^ attempt * 1000)] else []
      let next := redshiftRetryGo env sql maxRetries (attempt + 1) remaining (some e)
      (next.1, Call.redshift attempt sql :: waits ++ next.2)

/-- executeRedshiftQueryWithRetry: attempts numbered 1 up to maxRetries (the
source default, 2, is passed explicitly at every call site). -/
def executeRedshiftQueryWithRetry (env : Env) (sql : String) (maxRetries : Nat) :
    Except String Rows × List Call :=
  redshiftRetryGo env sql maxRetries 1 maxRetries none

/-- The backend routing of a cache miss in executeValidatedQuery: an
analytics-classified original SQL goes to the warehouse when one is
configured — warehouse-dialect rendering plus schema qualification, the
retry loop, and on any warehouse error a fallback to the deliveries backend
with the standard rendering — or to the deliveries backend when none is;
any other SQL goes directly to the main backend, once. -/
def routeAndRun (env : Env) (vq : ValidatedQuery) (finalFilters : Filters) :
    Except String Rows × List Call :=
  let sql := replacePlaceholders vq.sql_text finalFilters
  if usesAnalytics vq.sql_text then
    if env.redshiftAvailable then
      let redshiftSql := applyRedshiftSchemaPrefix env.schema
        (replacePlaceholdersForRedshift vq.sql_text finalFilters)
      match executeRedshiftQueryWithRetry env redshiftSql 2 with
      | (Except.ok r, cs) => (Except.ok r, cs)
      | (Except.error _, cs) => (env.deliveriesRun sql, cs ++ [Call.deliveries sql])
    else (env.deliveriesRun sql, [Call.deliveries sql])
  else (env.mainRun sql, [Call.main sql])

/-- executeValidatedQuery: resolve the catalogue entry by id or name, apply
default filters, derive the cache key from the resolved id and the final
filters, read through the ephemeral store (the read is not guarded, so a
store failure rejects the call), and on a miss run the routing step.  A
successful execution caches the rows and returns them with the cached flag
false; a hit returns the stored rows with the flag true.  Returns the
outcome, the resulting state and the backend interactions. -/
def executeValidatedQuery (env : Env) (st : St) (qid : String) (filters : Filters) :
    Except String (Rows × Bool) × St × List Call :=
  match getValidatedQueryByIdOrName st.db qid with
  | none => (Except.error "Validated query not found", st, [])
  | some validatedQuery =>
    let finalFilters := applyDefaultFilters env.nowMs filters
    let cacheKey := generateCacheKey validatedQuery.id finalFilters
    match redisGet env st cacheKey with
    | Except.error e => (Except.error e, st, [])
    | Except.ok (some cached) => (Except.ok (cached, true), st, [])
    | Except.ok none =>
      match routeAndRun env validatedQuery finalFilters with
      | (Except.error e, calls) => (Except.error e, st, calls)
      | (Except.ok results, calls) =>
        (Except.ok (results, false),
         cacheResults env st validatedQuery.id finalFilters results, calls)

/-- Outcome shape of testQuery: success with data, or failure with the
error message. -/
inductive TestResult where
  | ok : Rows → TestResult
  | err : String → TestResult
deriving DecidableEq, Repr

/-- The backend routing of testQuery: the same analytics heuristic over the
admin-supplied SQL, the hard row cap appended to every executed text. -/
def testRoute (env : Env) (sql : String) (finalFilters : Filters) :
    Except String Rows × List Call :=
  let processedSql := replacePlaceholders sql finalFilters
  if usesAnalytics sql then
    if env.redshiftAvailable then
      let redshiftSql := applyRedshiftSchemaPrefix env.schema
        (replacePlaceholdersForRedshift sql finalFilters)
      match executeRedshiftQueryWithRetry env (redshiftSql ++ " LIMIT 100") 2 with
      | (Except.ok r, cs) => (Except.ok r, cs)
      | (Except.error _, cs) =>
        (env.deliveriesRun (processedSql ++ " LIMIT 100"),
         cs ++ [Call.deliveries (processedSql ++ " LIMIT 100")])
    else
      (env.deliveriesRun (processedSql ++ " LIMIT 100"),
       [Call.deliveries (processedSql ++ " LIMIT 100")])
  else
    (env.mainRun (processedSql ++ " LIMIT 100"), [Call.main (processedSql ++ " LIMIT 100")])

/-- testQuery: render the admin-supplied SQL with defaulted filters and run
the capped routing; the whole body runs inside a try/catch in the source, so
every failure is returned as an error result rather than thrown. -/
def testQuery (env : Env) (sql : String) (filters : Filters) : TestResult × List Call :=
  let finalFilters := applyDefaultFilters env.nowMs filters
  match testRoute env sql finalFilters with
  | (Except.ok r, calls) => (TestResult.ok r, calls)
  | (Except.error e, calls) => (TestResult.err e, calls)

/-- Redis KEYS glob matching, for patterns made of literal characters and
the star and question-mark wildcards (the patterns built by the service are
a literal prefix followed by one star); fuel bounds the scan steps and the
summed lengths suffice. -/
def globMatchF : Nat → Chars → Chars → Bool
  | 0, _, _ => false
  | _ + 1, [], s => s.isEmpty
  | fuel + 1, c :: ps, s =>
    if c = '*' then
      match s with
      | [] => globMatchF fuel ps []
      | _ :: s2 => globMatchF fuel ps s || globMatchF fuel ('*' :: ps) s2
    else match s with
      | [] => false
      | c2 :: s2 => (c = '?' || c = c2) && globMatchF fuel ps s2

def globMatch (p s : Chars) : Bool :=
  globMatchF (p.length + s.length + 1) p s

/-- invalidateQueryCache: delete every ephemeral key matching the pattern of
the query id followed by a star in the validated-query namespace, then
append an invalidation log row recording the id, the digest of a star and
the update reason.  Durable snapshot rows are not touched. -/
def invalidateQueryCache (_env : Env) (st : St) (qid : String) : St :=
  let pattern := ("validated_query:" ++ qid ++ ":*").data
  { db := { st.db with cache_invalidations := st.db.cache_invalidations ++
      [⟨qid, md5Hex (utf8Encode "*"), "Query updated"⟩] },
    redisKv := st.redisKv.filter (fun e => !globMatch pattern e.key.data) }

/-- A partial update of a catalogue entry, as the dynamic SET clause of
updateValidatedQuery. -/
structure QueryPatch where
  name : Option String
  scope : Option String
  sql_text : Option String
  chart_hint : Option String
  validated_by : Option String
  active : Option Bool
deriving DecidableEq, Repr

def applyPatch (p : QueryPatch) (q : ValidatedQuery) : ValidatedQuery :=
  { q with
    name := p.name.getD q.name
    scope := p.scope.getD q.scope
    sql_text := p.sql_text.getD q.sql_text
    chart_hint := p.chart_hint.getD q.chart_hint
    validated_by := p.validated_by.getD q.validated_by
    active := p.active.getD q.active }

/-- updateValidatedQuery: update the catalogue rows carrying the id, then
invalidate all ephemeral cache entries of that query id. -/
def updateValidatedQuery (env : Env) (st : St) (id : String) (data : QueryPatch) : St :=
  let rows := st.db.validated_queries.map (fun q => if q.id == id then applyPatch data q else q)
  let st1 : St := { st with db := { st.db with validated_queries := rows } }
  invalidateQueryCache env st1 id

/-! Claim theorems. -/

/-- C1: at the template of the claim with the multi-select filter value
premium,standard the engine does not produce an IN clause and does not
consume every occurrence of the placeholder.  The global equality rewrite
runs first and, since its captured group retains the equals sign, turns the
comparison into column = (quoted list); the NULL-guard rewrite then no
longer finds its second placeholder occurrence and never fires, leaving the
literal placeholder in the guard.  The rendered output therefore still
contains the placeholder text and contains no IN, contrary to the claimed
rendering. -/
theorem replacePlaceholders_multiselect_bug :
    replacePlaceholders "SELECT * FROM merchants m WHERE (:tier IS NULL OR m.tier = :tier)"
        [("tier", JsVal.vstr "premium,standard")] =
      "SELECT * FROM merchants m WHERE (:tier IS NULL OR m.tier = (" ++ sqs ++ "premium" ++
        sqs ++ ", " ++ sqs ++ "standard" ++ sqs ++ "))" ∧
    strIncludes (replacePlaceholders
        "SELECT * FROM merchants m WHERE (:tier IS NULL OR m.tier = :tier)"
        [("tier", JsVal.vstr "premium,standard")]) ":tier" = true ∧
    strIncludes (replacePlaceholders
        "SELECT * FROM merchants m WHERE (:tier IS NULL OR m.tier = :tier)"
        [("tier", JsVal.vstr "premium,standard")]) "IN" = false := by
  refine ⟨?_, ?_, ?_⟩ <;> decide

/-- C9: at the same template with the tier binding absent, bound to null, or
bound to the empty string, every occurrence of the unbound placeholder is
replaced by the literal NULL, yielding the always-true guard of the claim. -/
theorem replacePlaceholders_null_guard :
    replacePlaceholders "SELECT * FROM merchants m WHERE (:tier IS NULL OR m.tier = :tier)"
        [] = "SELECT * FROM merchants m WHERE (NULL IS NULL OR m.tier = NULL)" ∧
    replacePlaceholders "SELECT * FROM merchants m WHERE (:tier IS NULL OR m.tier = :tier)"
        [("tier", JsVal.vnull)] =
      "SELECT * FROM merchants m WHERE (NULL IS NULL OR m.tier = NULL)" ∧
    replacePlaceholders "SELECT * FROM merchants m WHERE (:tier IS NULL OR m.tier = :tier)"
        [("tier", JsVal.vstr "")] =
      "SELECT * FROM merchants m WHERE (NULL IS NULL OR m.tier = NULL)" := by
  refine ⟨?_, ?_, ?_⟩ <;> decide

/-- Reading start_date after normalization: the head entry holds the input
value when the key is present (the trailing spread overrides the literal
default) and the 30-day default otherwise. -/
theorem flookup_applyDefaultFilters_start (n : Nat) (f : Filters) :
    flookup (applyDefaultFilters n f) "start_date" =
      some ((flookup f "start_date").getD (JsVal.vstr (dateStrOfMs (n - thirtyDaysMs)))) := by
  simp [applyDefaultFilters, flookup, List.find?]

/-- Reading end_date after normalization: the second entry holds the input
value when present and the current date otherwise. -/
theorem flookup_applyDefaultFilters_end (n : Nat) (f : Filters) :
    flookup (applyDefaultFilters n f) "end_date" =
      some ((flookup f "end_date").getD (JsVal.vstr (dateStrOfMs n))) := by
  simp [applyDefaultFilters, flookup, List.find?]

/-- C7 counterexample: the claim asserts that the normalized map always
carries a non-empty start_date, but an input that explicitly binds
start_date to the empty string keeps the empty string after normalization,
because the object spread runs after the defaulted literal and overrides
it. -/
theorem applyDefaultFilters_keeps_empty_start :
    flookup (applyDefaultFilters 1700000000000 [("start_date", JsVal.vstr "")])
      "start_date" = some (JsVal.vstr "") := by
  decide

/-- C7 amended: after normalization the start_date and end_date keys are
always present; a key absent from the input receives the default — end_date
the current date and start_date the date exactly 30 days earlier, both in
YYYY-MM-DD form — while a key present in the input keeps its input value,
the empty string included; measured in days since the epoch, the defaulted
window ends today and starts exactly 30 days before it. -/
theorem applyDefaultFilters_defaults (nowMs : Nat) (f : Filters)
    (h30 : thirtyDaysMs ≤ nowMs) :
    (flookup (applyDefaultFilters nowMs f) "start_date").isSome = true ∧
    (flookup (applyDefaultFilters nowMs f) "end_date").isSome = true ∧
    (flookup f "start_date" = none →
      flookup (applyDefaultFilters nowMs f) "start_date" =
        some (JsVal.vstr (dateStrOfMs (nowMs - thirtyDaysMs)))) ∧
    (flookup f "end_date" = none →
      flookup (applyDefaultFilters nowMs f) "end_date" =
        some (JsVal.vstr (dateStrOfMs nowMs))) ∧
    (∀ v, flookup f "start_date" = some v →
      flookup (applyDefaultFilters nowMs f) "start_date" = some v) ∧
    (∀ v, flookup f "end_date" = some v →
      flookup (applyDefaultFilters nowMs f) "end_date" = some v) ∧
    (nowMs - thirtyDaysMs) / 86400000 + 30 = nowMs / 86400000 := by
  refine ⟨?_, ?_, ?_, ?_, ?_, ?_, ?_⟩
  · rw [flookup_applyDefaultFilters_start]; rfl
  · rw [flookup_applyDefaultFilters_end]; rfl
  · intro h; rw [flookup_applyDefaultFilters_start, h]; rfl
  · intro h; rw [flookup_applyDefaultFilters_end, h]; rfl
  · intro v h; rw [flookup_applyDefaultFilters_start, h]; rfl
  · intro v h; rw [flookup_applyDefaultFilters_end, h]; rfl
  · simp only [thirtyDaysMs] at h30 ⊢
    omega

/-- C7 amended witness: the defaults at a concrete clock value and the empty
filter map. -/
theorem applyDefaultFilters_defaults_witness :
    (flookup (applyDefaultFilters 1700000000000 []) "start_date").isSome = true ∧
    (flookup ([] : Filters) "start_date" = none →
      flookup (applyDefaultFilters 1700000000000 []) "start_date" =
        some (JsVal.vstr (dateStrOfMs (1700000000000 - thirtyDaysMs)))) ∧
    (1700000000000 - thirtyDaysMs) / 86400000 + 30 = 1700000000000 / 86400000 :=
  let h := applyDefaultFilters_defaults 1700000000000 [] (by decide)
  ⟨h.1, h.2.2.1, h.2.2.2.2.2.2⟩

/-- The packed UTF-16 key determines the code point. -/
theorem charKey_toNat_inj (c1 c2 : Char) (h : charKey c1 = charKey c2) :
    c1.toNat = c2.toNat := by
  simp only [charKey] at h
  split_ifs at h <;> omega

/-- The packed UTF-16 key is injective on characters. -/
theorem charKey_injective : Function.Injective charKey := by
  intro c1 c2 h
  have ht := charKey_toNat_inj c1 c2 h
  have h1 := Char.ofNat_toNat c1
  have h2 := Char.ofNat_toNat c2
  rw [← h1, ← h2, ht]

/-- Equal key lists come from equal strings. -/
theorem strKey_inj (a b : String) (h : strKey a = strKey b) : a = b := by
  have hd : a.data = b.data := (List.map_injective_iff.mpr charKey_injective) h
  cases a
  cases b
  exact congrArg String.mk hd

instance : IsTrans String jsKeyLe :=
  ⟨fun _ _ _ h1 h2 => le_trans h1 h2⟩

instance : IsTotal String jsKeyLe :=
  ⟨fun a b => le_total (strKey a) (strKey b)⟩

instance : IsAntisymm String jsKeyLe :=
  ⟨fun a b h1 h2 => strKey_inj a b (le_antisymm h1 h2)⟩

/-- Property reads characterise membership when the keys are free of
duplicates. -/
theorem flookup_eq_some_iff (f : Filters) (k : String) (v : JsVal)
    (hnd : (f.map Prod.fst).Nodup) : flookup f k = some v ↔ (k, v) ∈ f := by
  induction f with
  | nil => simp [flookup]
  | cons p t ih =>
    obtain ⟨k1, v1⟩ := p
    simp only [List.map_cons, List.nodup_cons] at hnd
    by_cases hk : k1 = k
    · subst hk
      have hstep : flookup ((k1, v1) :: t) k1 = some v1 := by
        simp [flookup, List.find?]
      rw [hstep, List.mem_cons]
      constructor
      · intro hv
        exact Or.inl (by cases hv; rfl)
      · intro hv
        rcases hv with hv | hv
        · cases hv; rfl
        · exact absurd (List.mem_map_of_mem Prod.fst hv) (by simpa using hnd.1)
    · have hb : (k1 == k) = false := beq_false_of_ne hk
      have hstep : flookup ((k1, v1) :: t) k = flookup t k := by
        simp [flookup, List.find?, hb]
      rw [hstep, ih hnd.2, List.mem_cons]
      constructor
      · exact Or.inr
      · intro hv
        rcases hv with hv | hv
        · exact absurd (congrArg Prod.fst hv) (fun hh => hk hh.symm)
        · exact hv

/-- A property read misses exactly when the key is absent. -/
theorem flookup_eq_none_iff (f : Filters) (k : String) :
    flookup f k = none ↔ k ∉ f.map Prod.fst := by
  induction f with
  | nil => simp [flookup]
  | cons p t ih =>
    obtain ⟨k1, v1⟩ := p
    by_cases hk : k1 = k
    · subst hk
      have hstep : flookup ((k1, v1) :: t) k1 = some v1 := by
        simp [flookup, List.find?]
      simp [hstep]
    · have hb : (k1 == k) = false := beq_false_of_ne hk
      have hstep : flookup ((k1, v1) :: t) k = flookup t k := by
        simp [flookup, List.find?, hb]
      rw [hstep, ih]
      simp only [List.map_cons, List.mem_cons]
      constructor
      · intro h hh
        rcases hh with hh | hh
        · exact hk hh.symm
        · exact h hh
      · intro h hh
        exact h (Or.inr hh)

/-- Property reads agree across a permutation of a duplicate-free map. -/
theorem flookup_perm (f1 f2 : Filters) (hp : f1.Perm f2)
    (hnd : (f1.map Prod.fst).Nodup) (k : String) : flookup f1 k = flookup f2 k := by
  have hnd2 : (f2.map Prod.fst).Nodup := ((hp.map Prod.fst).nodup_iff).mp hnd
  cases h : flookup f1 k with
  | some v =>
    have hm : (k, v) ∈ f1 := (flookup_eq_some_iff f1 k v hnd).mp h
    exact ((flookup_eq_some_iff f2 k v hnd2).mpr (hp.subset hm)).symm
  | none =>
    have hm : k ∉ f1.map Prod.fst := (flookup_eq_none_iff f1 k).mp h
    exact ((flookup_eq_none_iff f2 k).mpr
      (fun hh => hm ((hp.map Prod.fst).mem_iff.mpr hh))).symm

/-- Sorting by the JavaScript comparator sends permuted key lists to the
same sorted list. -/
theorem sortKeys_perm_eq (l1 l2 : List String) (hp : l1.Perm l2) :
    sortKeys l1 = sortKeys l2 :=
  List.eq_of_perm_of_sorted
    ((List.perm_insertionSort jsKeyLe l1).trans
      (hp.trans (List.perm_insertionSort jsKeyLe l2).symm))
    (List.sorted_insertionSort jsKeyLe l1) (List.sorted_insertionSort jsKeyLe l2)

/-- The canonical sorted filter object is invariant under permutation of a
duplicate-free filter map. -/
theorem sortedFilters_perm (f1 f2 : Filters) (hp : f1.Perm f2)
    (hnd : (f1.map Prod.fst).Nodup) : sortedFilters f1 = sortedFilters f2 := by
  unfold sortedFilters
  rw [sortKeys_perm_eq (f1.map Prod.fst) (f2.map Prod.fst) (hp.map Prod.fst)]
  exact List.map_congr_left (fun k _ => by rw [flookup_perm f1 f2 hp hnd k])

/-- C2: cache key determinism.  Two filter maps holding the same key-value
pairs in any insertion order produce the same cache key, because the key
hashes the JSON encoding of the object rebuilt with its keys sorted; and
the key is the query id and that 128-bit MD5 hex digest in the
validated-query namespace. -/
theorem generateCacheKey_order_independent (q : String) (f1 f2 : Filters)
    (hnd : (f1.map Prod.fst).Nodup) (hp : f1.Perm f2) :
    generateCacheKey q f1 = generateCacheKey q f2 ∧
    generateCacheKey q f1 = "validated_query:" ++ q ++ ":" ++
      md5Hex (utf8Encode (String.mk (jsonStringifyPairs (sortedFilters f1)))) := by
  constructor
  · unfold generateCacheKey
    rw [sortedFilters_perm f1 f2 hp hnd]
  · rfl

/-- C2 witness: the two insertion orders of a two-key filter map. -/
theorem generateCacheKey_order_independent_witness :
    generateCacheKey "q" [("b", JsVal.vnum 2), ("a", JsVal.vnum 1)] =
      generateCacheKey "q" [("a", JsVal.vnum 1), ("b", JsVal.vnum 2)] :=
  (generateCacheKey_order_independent "q"
    [("b", JsVal.vnum 2), ("a", JsVal.vnum 1)]
    [("a", JsVal.vnum 1), ("b", JsVal.vnum 2)]
    (by decide) (by decide)).1

/-- Caching results never touches the catalogue table. -/
theorem cacheResults_validated_queries (env : Env) (st : St) (qid : String)
    (f : Filters) (r : Rows) :
    (cacheResults env st qid f r).db.validated_queries = st.db.validated_queries := by
  unfold cacheResults redisSetEx
  split <;> split <;> rfl

/-- After a successful ephemeral write, the cache key of the written rows
reads back those rows. -/
theorem cacheResults_redisLookup_self (env : Env) (st : St) (qid : String)
    (f : Filters) (r : Rows) (hw : env.redisWriteOk = true) :
    redisLookup (cacheResults env st qid f r) (generateCacheKey qid f) = some r := by
  unfold cacheResults
  rw [hw]
  simp only [if_true]
  split
  · unfold redisLookup redisSetEx
    simp [List.find?]
  · unfold redisLookup redisSetEx
    simp [List.find?]

/-- The key-value store read succeeded only if the store was completing
reads. -/
theorem redisGet_ok_readOk (env : Env) (st : St) (k : String) (o : Option Rows)
    (h : redisGet env st k = Except.ok o) : env.redisReadOk = true := by
  unfold redisGet at h
  by_cases hr : env.redisReadOk
  · exact hr
  · rw [if_neg hr] at h
    cases h

/-- The key-value store read returns the stored value when reads complete. -/
theorem redisGet_of_readOk (env : Env) (st : St) (k : String)
    (hr : env.redisReadOk = true) : redisGet env st k = Except.ok (redisLookup st k) := by
  unfold redisGet
  rw [hr]
  rfl

/-- C3: cache round trip.  If an execution with a writing ephemeral store
returns a row set with the cached flag false, running the same query id and
filter map again on the resulting state returns the same row set with the
cached flag true, leaves the state unchanged and performs no backend
interaction. -/
theorem executeValidatedQuery_cache_round_trip (env : Env) (st : St) (qid : String)
    (filters : Filters) (rows : Rows) (st2 : St) (calls : List Call)
    (hw : env.redisWriteOk = true)
    (h1 : executeValidatedQuery env st qid filters = (Except.ok (rows, false), st2, calls)) :
    executeValidatedQuery env st2 qid filters = (Except.ok (rows, true), st2, []) := by
  unfold executeValidatedQuery at h1
  cases hq : getValidatedQueryByIdOrName st.db qid with
  | none =>
    rw [hq] at h1
    simp at h1
  | some vq =>
    rw [hq] at h1
    dsimp only [] at h1
    cases hg : redisGet env st (generateCacheKey vq.id (applyDefaultFilters env.nowMs filters)) with
    | error e =>
      rw [hg] at h1
      simp at h1
    | ok opt =>
      cases opt with
      | some cached =>
        rw [hg] at h1
        simp at h1
      | none =>
        rw [hg] at h1
        dsimp only [] at h1
        cases ho : routeAndRun env vq (applyDefaultFilters env.nowMs filters) with
        | mk res calls0 =>
          cases res with
          | error e =>
            rw [ho] at h1
            simp at h1
          | ok results =>
            rw [ho] at h1
            simp only [Prod.mk.injEq, Except.ok.injEq] at h1
            obtain ⟨⟨hres, -⟩, hst2, hcalls⟩ := h1
            subst hres
            have hread : env.redisReadOk = true := redisGet_ok_readOk env st _ _ hg
            unfold executeValidatedQuery
            have hdb : getValidatedQueryByIdOrName st2.db qid = some vq := by
              rw [← hst2]
              unfold getValidatedQueryByIdOrName getValidatedQuery getValidatedQueryByName
              rw [cacheResults_validated_queries]
              exact hq
            rw [hdb]
            dsimp only []
            rw [redisGet_of_readOk env st2 _ hread]
            rw [← hst2, cacheResults_redisLookup_self env st vq.id _ results hw]

/-- The retry loop performs at most as many warehouse attempts as it has
remaining. -/
theorem redshiftRetryGo_count (env : Env) (s : String) (mr : Nat) :
    ∀ rem attempt lastErr,
      (redshiftRetryGo env s mr attempt rem lastErr).2.countP
        (fun c => match c with | Call.redshift _ _ => true | _ => false) ≤ rem := by
  intro rem
  induction rem with
  | zero =>
    intro attempt lastErr
    simp [redshiftRetryGo]
  | succ n ih =>
    intro attempt lastErr
    unfold redshiftRetryGo
    cases env.redshiftAttempt attempt s with
    | ok r => simp
    | error e =>
      simp only [List.countP_cons, List.countP_append]
      have hw : (if attempt < mr then [Call.wait (2 ^ attempt * 1000)] else []).countP
          (fun c => match c with | Call.redshift _ _ => true | _ => false) = 0 := by
        split <;> simp [List.countP_cons]
      rw [hw]
      have hih := ih (attempt + 1) (some e)
      norm_num
      omega

/-- C4: with an analytics-classified query, a configured warehouse and a
cache miss, and every warehouse attempt failing, the execution makes
exactly the two bounded attempts with the exponential backoff wait between
them, then runs the standard rendering on the deliveries backend: its rows
are returned (and cached) without surfacing the warehouse error, and an
error reaches the caller only if the fallback itself fails; in general the
retry loop never makes more than two warehouse attempts. -/
theorem executeValidatedQuery_warehouse_fallback (env : Env) (st : St) (qid : String)
    (filters : Filters) (vq : ValidatedQuery) (rsql sql : String) (e1 e2 : String)
    (hq : getValidatedQueryByIdOrName st.db qid = some vq)
    (hana : usesAnalytics vq.sql_text = true)
    (hrs : env.redshiftAvailable = true)
    (hread : env.redisReadOk = true)
    (hmiss : redisLookup st (generateCacheKey vq.id (applyDefaultFilters env.nowMs filters)) = none)
    (hrsql : rsql = applyRedshiftSchemaPrefix env.schema
      (replacePlaceholdersForRedshift vq.sql_text (applyDefaultFilters env.nowMs filters)))
    (hsql : sql = replacePlaceholders vq.sql_text (applyDefaultFilters env.nowMs filters))
    (ha1 : env.redshiftAttempt 1 rsql = Except.error e1)
    (ha2 : env.redshiftAttempt 2 rsql = Except.error e2) :
    (∀ r, env.deliveriesRun sql = Except.ok r →
      executeValidatedQuery env st qid filters =
        (Except.ok (r, false),
         cacheResults env st vq.id (applyDefaultFilters env.nowMs filters) r,
         [Call.redshift 1 rsql, Call.wait 2000, Call.redshift 2 rsql, Call.deliveries sql])) ∧
    (∀ e, env.deliveriesRun sql = Except.error e →
      executeValidatedQuery env st qid filters =
        (Except.error e, st,
         [Call.redshift 1 rsql, Call.wait 2000, Call.redshift 2 rsql, Call.deliveries sql])) ∧
    (∀ s2, (executeRedshiftQueryWithRetry env s2 2).2.countP
        (fun c => match c with | Call.redshift _ _ => true | _ => false) ≤ 2) := by
  have hretry : executeRedshiftQueryWithRetry env rsql 2 =
      (Except.error e2, [Call.redshift 1 rsql, Call.wait 2000, Call.redshift 2 rsql]) := by
    unfold executeRedshiftQueryWithRetry
    unfold redshiftRetryGo
    rw [ha1]
    unfold redshiftRetryGo
    rw [ha2]
    unfold redshiftRetryGo
    norm_num
  have hbody : ∀ res calls, routeAndRun env vq (applyDefaultFilters env.nowMs filters) =
      (res, calls) → executeValidatedQuery env st qid filters =
        (match res with
         | Except.error e => (Except.error e, st, calls)
         | Except.ok results =>
           (Except.ok (results, false),
            cacheResults env st vq.id (applyDefaultFilters env.nowMs filters) results, calls)) := by
    intro res calls ho
    unfold executeValidatedQuery
    rw [hq]
    dsimp only []
    rw [redisGet_of_readOk env st _ hread, hmiss]
    dsimp only []
    rw [ho]
    cases res <;> rfl
  have hroute : routeAndRun env vq (applyDefaultFilters env.nowMs filters) =
      (env.deliveriesRun sql,
       [Call.redshift 1 rsql, Call.wait 2000, Call.redshift 2 rsql, Call.deliveries sql]) := by
    unfold routeAndRun
    rw [hana, hrs]
    dsimp only []
    rw [← hrsql, hretry, ← hsql]
    rfl
  refine ⟨?_, ?_, ?_⟩
  · intro r hr
    have := hbody (env.deliveriesRun sql)
      [Call.redshift 1 rsql, Call.wait 2000, Call.redshift 2 rsql, Call.deliveries sql] hroute
    rw [hr] at this
    exact this
  · intro e he
    have := hbody (env.deliveriesRun sql)
      [Call.redshift 1 rsql, Call.wait 2000, Call.redshift 2 rsql, Call.deliveries sql] hroute
    rw [he] at this
    exact this
  · intro s2
    exact redshiftRetryGo_count env s2 2 2 1 none

/-- On a successful read that misses, the execution is the routing step with
caching of a successful result. -/
theorem executeValidatedQuery_on_miss (env : Env) (st : St) (qid : String)
    (filters : Filters) (vq : ValidatedQuery)
    (hq : getValidatedQueryByIdOrName st.db qid = some vq)
    (hread : env.redisReadOk = true)
    (hmiss : redisLookup st (generateCacheKey vq.id (applyDefaultFilters env.nowMs filters)) = none) :
    executeValidatedQuery env st qid filters =
      (match routeAndRun env vq (applyDefaultFilters env.nowMs filters) with
       | (Except.error e, calls) => (Except.error e, st, calls)
       | (Except.ok results, calls) =>
         (Except.ok (results, false),
          cacheResults env st vq.id (applyDefaultFilters env.nowMs filters) results, calls)) := by
  unfold executeValidatedQuery
  rw [hq]
  dsimp only []
  rw [redisGet_of_readOk env st _ hread, hmiss]

/-- The backend interactions of an execution on a miss are those of the
routing step. -/
theorem executeValidatedQuery_trace_eq (env : Env) (st : St) (qid : String)
    (filters : Filters) (vq : ValidatedQuery)
    (hq : getValidatedQueryByIdOrName st.db qid = some vq)
    (hread : env.redisReadOk = true)
    (hmiss : redisLookup st (generateCacheKey vq.id (applyDefaultFilters env.nowMs filters)) = none) :
    (executeValidatedQuery env st qid filters).2.2 =
      (routeAndRun env vq (applyDefaultFilters env.nowMs filters)).2 := by
  rw [executeValidatedQuery_on_miss env st qid filters vq hq hread hmiss]
  rcases hr : routeAndRun env vq (applyDefaultFilters env.nowMs filters) with ⟨res, calls⟩
  cases res <;> rfl

/-- The first interaction of the retry loop with the bound used by the
service is the first warehouse attempt. -/
theorem executeRedshiftQueryWithRetry_head (env : Env) (s : String) :
    (executeRedshiftQueryWithRetry env s 2).2.head? = some (Call.redshift 1 s) := by
  unfold executeRedshiftQueryWithRetry redshiftRetryGo
  cases h : env.redshiftAttempt 1 s <;> rfl

/-- C8: routing.  On a cache miss, the analytics classification is exactly
the containment of one of the five marker substrings in the original,
unrendered SQL text; the warehouse is engaged (some warehouse attempt
appears among the interactions) exactly when the text is so classified and
a warehouse connection is configured, and the engagement starts with the
first attempt on the warehouse-dialect rendering; a classified query
without a warehouse runs once on the deliveries backend; an unclassified
query runs exactly once on the main backend, with no retry. -/
theorem executeValidatedQuery_routing (env : Env) (st : St) (qid : String)
    (filters : Filters) (vq : ValidatedQuery) (rsql sql : String)
    (hq : getValidatedQueryByIdOrName st.db qid = some vq)
    (hread : env.redisReadOk = true)
    (hmiss : redisLookup st (generateCacheKey vq.id (applyDefaultFilters env.nowMs filters)) = none)
    (hrsql : rsql = applyRedshiftSchemaPrefix env.schema
      (replacePlaceholdersForRedshift vq.sql_text (applyDefaultFilters env.nowMs filters)))
    (hsql : sql = replacePlaceholders vq.sql_text (applyDefaultFilters env.nowMs filters)) :
    (usesAnalytics vq.sql_text =
      (strIncludes vq.sql_text "deliveries" || strIncludes vq.sql_text "businesses" ||
       strIncludes vq.sql_text "TO_CHAR" || strIncludes vq.sql_text "::numeric" ||
       strIncludes vq.sql_text "${schema}")) ∧
    ((∃ a s2, Call.redshift a s2 ∈ (executeValidatedQuery env st qid filters).2.2) ↔
      (usesAnalytics vq.sql_text = true ∧ env.redshiftAvailable = true)) ∧
    (usesAnalytics vq.sql_text = false →
      executeValidatedQuery env st qid filters =
        (match env.mainRun sql with
         | Except.ok r =>
           (Except.ok (r, false),
            cacheResults env st vq.id (applyDefaultFilters env.nowMs filters) r, [Call.main sql])
         | Except.error e => (Except.error e, st, [Call.main sql]))) ∧
    (usesAnalytics vq.sql_text = true → env.redshiftAvailable = false →
      executeValidatedQuery env st qid filters =
        (match env.deliveriesRun sql with
         | Except.ok r =>
           (Except.ok (r, false),
            cacheResults env st vq.id (applyDefaultFilters env.nowMs filters) r,
            [Call.deliveries sql])
         | Except.error e => (Except.error e, st, [Call.deliveries sql]))) ∧
    (usesAnalytics vq.sql_text = true → env.redshiftAvailable = true →
      (executeValidatedQuery env st qid filters).2.2.head? = some (Call.redshift 1 rsql)) := by
  have htr := executeValidatedQuery_trace_eq env st qid filters vq hq hread hmiss
  have hbody := executeValidatedQuery_on_miss env st qid filters vq hq hread hmiss
  refine ⟨rfl, ?_, ?_, ?_, ?_⟩
  · constructor
    · rintro ⟨a, s2, hmem⟩
      rw [htr] at hmem
      cases hana : usesAnalytics vq.sql_text with
      | false =>
        exfalso
        unfold routeAndRun at hmem
        rw [hana] at hmem
        simp at hmem
      | true =>
        cases hrs : env.redshiftAvailable with
        | false =>
          exfalso
          unfold routeAndRun at hmem
          rw [hana, hrs] at hmem
          simp at hmem
        | true => exact ⟨rfl, rfl⟩
    · rintro ⟨hana, hrs⟩
      rw [htr]
      unfold routeAndRun
      rw [hana, hrs]
      dsimp only []
      rcases hr : executeRedshiftQueryWithRetry env (applyRedshiftSchemaPrefix env.schema
          (replacePlaceholdersForRedshift vq.sql_text (applyDefaultFilters env.nowMs filters))) 2
        with ⟨res, cs⟩
      have hhead := executeRedshiftQueryWithRetry_head env (applyRedshiftSchemaPrefix env.schema
        (replacePlaceholdersForRedshift vq.sql_text (applyDefaultFilters env.nowMs filters)))
      rw [hr] at hhead
      have hmem : Call.redshift 1 (applyRedshiftSchemaPrefix env.schema
          (replacePlaceholdersForRedshift vq.sql_text (applyDefaultFilters env.nowMs filters))) ∈ cs := by
        cases cs with
        | nil => cases hhead
        | cons c t =>
          cases hhead
          exact List.mem_cons_self _ _
      cases res with
      | ok r => exact ⟨1, _, hmem⟩
      | error e => exact ⟨1, _, List.mem_append_left _ hmem⟩
  · intro hana
    rw [hbody]
    unfold routeAndRun
    dsimp only []
    rw [← hsql, if_neg (by simp [hana])]
    cases env.mainRun sql <;> rfl
  · intro hana hrs
    rw [hbody]
    unfold routeAndRun
    dsimp only []
    rw [← hsql, if_pos hana, if_neg (by simp [hrs])]
    cases env.deliveriesRun sql <;> rfl
  · intro hana hrs
    rw [htr]
    unfold routeAndRun
    rw [hana, hrs]
    dsimp only []
    rw [← hrsql]
    rcases hr : executeRedshiftQueryWithRetry env rsql 2 with ⟨res, cs⟩
    have hhead := executeRedshiftQueryWithRetry_head env rsql
    rw [hr] at hhead
    cases res with
    | ok r => exact hhead
    | error e =>
      cases cs with
      | nil => cases hhead
      | cons c t =>
        cases hhead
        rfl

/-- The key-value store read rejects when the store is failing. -/
theorem redisGet_of_readOk_false (env : Env) (st : St) (k : String)
    (hr : env.redisReadOk = false) : redisGet env st k = Except.error "redis get failed" := by
  unfold redisGet
  rw [hr]
  rfl

/-- A catalogue row used by the concrete witnesses. -/
def qW : ValidatedQuery :=
  ⟨"q1", "Q1", "ALL", "SELECT 1 AS c", "auto", "admin", true⟩

/-- The single-row result of the witness main backend. -/
def rowsW : Rows := [[("c", JsVal.vnum 1)]]

/-- A witness state: the catalogue holds the one query, the snapshot table,
the invalidation log and the ephemeral store are empty. -/
def stW : St := ⟨⟨[qW], [], []⟩, []⟩

/-- A witness environment with no warehouse and a healthy store. -/
def envW : Env :=
  ⟨1700000000000, "public", false, fun _ _ => Except.error "no warehouse",
   fun _ => Except.ok [], fun _ => Except.ok rowsW, true, true, true⟩

/-- The witness environment with the ephemeral store failing its reads. -/
def envRF : Env :=
  ⟨1700000000000, "public", false, fun _ _ => Except.error "no warehouse",
   fun _ => Except.ok [], fun _ => Except.ok rowsW, false, true, true⟩

/-- C5 counterexample: a store whose read fails makes the whole execution
fail.  The catalogue resolves the query and the main backend would answer
every SQL, yet the call returns the store error, reaches no backend (the
interaction list is empty) and is not treated as a miss — contradicting the
claim that a cache read failure never fails an execution. -/
theorem executeValidatedQuery_read_failure_fatal :
    envRF.redisReadOk = false ∧
    getValidatedQueryByIdOrName stW.db "q1" = some qW ∧
    (∀ s, envRF.mainRun s = Except.ok rowsW) ∧
    executeValidatedQuery envRF stW "q1" [] = (Except.error "redis get failed", stW, []) := by
  refine ⟨rfl, rfl, fun s => rfl, ?_⟩
  unfold executeValidatedQuery
  rw [show getValidatedQueryByIdOrName stW.db "q1" = some qW from rfl]
  dsimp only []
  rw [redisGet_of_readOk_false envRF stW _ rfl]

/-- C5 amended: failures of the ephemeral cache writes and of the durable
snapshot insert never change the outcome of an execution — the first
component of the result is the same whatever the write and snapshot health —
while a cache read failure is fatal: with a resolvable query it rejects the
call with the store error, before any backend interaction. -/
theorem executeValidatedQuery_cache_failure_tolerance :
    (∀ env st qid filters b1 b2,
      (executeValidatedQuery { env with redisWriteOk := b1, snapshotOk := b2 }
        st qid filters).1 = (executeValidatedQuery env st qid filters).1) ∧
    (∀ env st qid filters vq, env.redisReadOk = false →
      getValidatedQueryByIdOrName st.db qid = some vq →
      executeValidatedQuery env st qid filters = (Except.error "redis get failed", st, [])) := by
  constructor
  · intro env st qid filters b1 b2
    set E : Env := { env with redisWriteOk := b1, snapshotOk := b2 } with hE
    cases hq : getValidatedQueryByIdOrName st.db qid with
    | none =>
      unfold executeValidatedQuery
      rw [hq]
    | some vq =>
      cases hr : env.redisReadOk with
      | false =>
        unfold executeValidatedQuery
        rw [hq]
        dsimp only []
        rw [redisGet_of_readOk_false env st _ hr,
          redisGet_of_readOk_false E st _ hr]
      | true =>
        cases hl : redisLookup st (generateCacheKey vq.id (applyDefaultFilters env.nowMs filters)) with
        | some cached =>
          unfold executeValidatedQuery
          rw [hq]
          dsimp only []
          rw [redisGet_of_readOk env st _ hr, redisGet_of_readOk E st _ hr, hl]
        | none =>
          rw [executeValidatedQuery_on_miss env st qid filters vq hq hr hl,
            executeValidatedQuery_on_miss E st qid filters vq hq hr hl]
          have hrr : routeAndRun E vq (applyDefaultFilters E.nowMs filters) =
              routeAndRun env vq (applyDefaultFilters env.nowMs filters) := rfl
          rw [hrr]
          cases hro : routeAndRun env vq (applyDefaultFilters env.nowMs filters) with
          | mk res calls => cases res <;> rfl
  · intro env st qid filters vq hr hq
    unfold executeValidatedQuery
    rw [hq]
    dsimp only []
    rw [redisGet_of_readOk_false env st _ hr]

/-- C5 amended witness: concrete instances of both halves — flipping the
write and snapshot health does not change the outcome of the witness
execution, and the failing-read environment rejects with the store
error. -/
theorem executeValidatedQuery_cache_failure_tolerance_witness :
    (executeValidatedQuery { envW with redisWriteOk := false, snapshotOk := false }
      stW "q1" []).1 = (executeValidatedQuery envW stW "q1" []).1 ∧
    executeValidatedQuery envRF stW "q1" [] = (Except.error "redis get failed", stW, []) :=
  ⟨executeValidatedQuery_cache_failure_tolerance.1 envW stW "q1" [] false false,
   executeValidatedQuery_cache_failure_tolerance.2 envRF stW "q1" [] qW rfl rfl⟩

/-- A star pattern alone matches everything, given enough fuel. -/
theorem globMatchF_star_all (s : Chars) : ∀ f, s.length + 2 ≤ f →
    globMatchF f ['*'] s = true := by
  induction s with
  | nil =>
    intro f hf
    match f, hf with
    | n + 1, hf =>
      show globMatchF (n + 1) ['*'] [] = true
      unfold globMatchF
      rw [if_pos rfl]
      match n, (by omega : 1 ≤ n) with
      | m + 1, _ => rfl
  | cons c s2 ih =>
    intro f hf
    match f, hf with
    | n + 1, hf =>
      show globMatchF (n + 1) ['*'] (c :: s2) = true
      unfold globMatchF
      rw [if_pos rfl]
      dsimp only []
      have hlen : s2.length + 2 ≤ n := by
        simp only [List.length_cons] at hf
        omega
      rw [ih n hlen]
      simp

/-- A literal pattern followed by one star matches exactly the strings that
start with the literal prefix, when the literal holds no wildcard. -/
theorem globMatchF_literal_star (p : Chars) :
    ∀ f s, p.length + s.length + 2 ≤ f → (∀ c ∈ p, c ≠ '*' ∧ c ≠ '?') →
      globMatchF f (p ++ ['*']) s = p.isPrefixOf s := by
  induction p with
  | nil =>
    intro f s hf _
    simp only [List.nil_append]
    rw [globMatchF_star_all s f (by simp at hf; omega)]
    symm
    simp [List.isPrefixOf]
  | cons a p ih =>
    intro f s hf hp
    match f, hf with
    | n + 1, hf =>
      show globMatchF (n + 1) (a :: (p ++ ['*'])) s = (a :: p).isPrefixOf s
      unfold globMatchF
      rw [if_neg (hp a (List.mem_cons_self a p)).1]
      cases s with
      | nil => simp [List.isPrefixOf]
      | cons c s2 =>
        have hrec := ih n s2
          (by simp only [List.length_cons] at hf ⊢; omega)
          (fun c2 hc2 => hp c2 (List.mem_cons_of_mem a hc2))
        dsimp only []
        rw [hrec]
        have hq : (a = '?') = False := by
          simp [(hp a (List.mem_cons_self a p)).2]
        simp only [List.isPrefixOf, hq, decide_False, Bool.false_or]
        rfl

/-- The wrapped glob test of the invalidation pattern is the prefix test. -/
theorem globMatch_star_prefix (p s : Chars) (hp : ∀ c ∈ p, c ≠ '*' ∧ c ≠ '?') :
    globMatch (p ++ ['*']) s = p.isPrefixOf s := by
  unfold globMatch
  exact globMatchF_literal_star p ((p ++ ['*']).length + s.length + 1) s
    (by simp only [List.length_append, List.length_cons, List.length_nil]; omega) hp

/-- Every list is a prefix of itself extended. -/
theorem isPrefixOf_self_append (x y : Chars) : x.isPrefixOf (x ++ y) = true := by
  induction x with
  | nil => cases y <;> rfl
  | cons a t ih => simp [List.isPrefixOf, ih]

/-- Prefix testing cancels a common prefix. -/
theorem isPrefixOf_append_same (x u v : Chars) :
    (x ++ u).isPrefixOf (x ++ v) = u.isPrefixOf v := by
  induction x with
  | nil => rfl
  | cons a t ih => simp [List.isPrefixOf, ih]

/-- If one colon-free id followed by a colon is a prefix of another
colon-free id followed by a colon and more, the ids are equal. -/
theorem isPrefixOf_colon_structure (q1 : Chars) :
    ∀ q2 h : Chars, (∀ c ∈ q1, c ≠ ':') → (∀ c ∈ q2, c ≠ ':') →
      (q1 ++ [':']).isPrefixOf (q2 ++ ':' :: h) = true → q1 = q2 := by
  induction q1 with
  | nil =>
    intro q2 h _ h2 hpre
    cases q2 with
    | nil => rfl
    | cons b t =>
      exfalso
      simp only [List.nil_append, List.cons_append, List.isPrefixOf,
        Bool.and_eq_true, beq_iff_eq] at hpre
      exact h2 b (List.mem_cons_self b t) hpre.1.symm
  | cons a t ih =>
    intro q2 h h1 h2 hpre
    cases q2 with
    | nil =>
      exfalso
      simp only [List.nil_append, List.cons_append, List.isPrefixOf,
        Bool.and_eq_true, beq_iff_eq] at hpre
      exact h1 a (List.mem_cons_self a t) hpre.1
    | cons b t2 =>
      simp only [List.cons_append, List.isPrefixOf, Bool.and_eq_true, beq_iff_eq] at hpre
      rw [hpre.1,
        ih t2 h (fun c hc => h1 c (List.mem_cons_of_mem a hc))
          (fun c hc => h2 c (List.mem_cons_of_mem b hc)) hpre.2]

/-- C6: invalidation frame.  Updating a catalogue entry whose id is free of
colons and wildcards removes from the ephemeral store exactly the entries
whose key starts with the validated-query namespace, that id and a colon —
every filter combination of that id, which therefore misses on the next
read — while every entry of any other colon-free query id and every
filter-options entry survives, and the durable snapshot rows are left
untouched. -/
theorem updateValidatedQuery_invalidation_frame (env : Env) (st : St) (id : String)
    (data : QueryPatch) (hid : ∀ c ∈ id.data, c ≠ '*' ∧ c ≠ '?' ∧ c ≠ ':') :
    (updateValidatedQuery env st id data).db.validated_results = st.db.validated_results ∧
    (∀ h2 : String, redisLookup (updateValidatedQuery env st id data)
      ("validated_query:" ++ id ++ ":" ++ h2) = none) ∧
    (∀ (q2 h2 : String) (e : RedisEntry), e ∈ st.redisKv →
      e.key = "validated_query:" ++ q2 ++ ":" ++ h2 → (∀ c ∈ q2.data, c ≠ ':') →
      q2 ≠ id → e ∈ (updateValidatedQuery env st id data).redisKv) ∧
    (∀ (p : String) (e : RedisEntry), e ∈ st.redisKv →
      e.key = "filter_options:" ++ p → e ∈ (updateValidatedQuery env st id data).redisKv) ∧
    (∀ e : RedisEntry, e ∈ (updateValidatedQuery env st id data).redisKv ↔
      (e ∈ st.redisKv ∧
        ("validated_query:" ++ id ++ ":").data.isPrefixOf e.key.data = false)) := by
  have hkv : (updateValidatedQuery env st id data).redisKv =
      st.redisKv.filter
        (fun e => !globMatch ("validated_query:" ++ id ++ ":*").data e.key.data) := rfl
  have hpat : ("validated_query:" ++ id ++ ":*").data =
      ("validated_query:" ++ id ++ ":").data ++ ['*'] := by
    simp [String.data_append, List.append_assoc]
  have hplain : ∀ c ∈ ("validated_query:" ++ id ++ ":").data, c ≠ '*' ∧ c ≠ '?' := by
    intro c hc
    rw [String.data_append, String.data_append] at hc
    rcases List.mem_append.mp hc with hc2 | hc2
    · rcases List.mem_append.mp hc2 with hc3 | hc3
      · have hlit : ∀ c2 ∈ "validated_query:".data, c2 ≠ '*' ∧ c2 ≠ '?' := by decide
        exact hlit c hc3
      · exact ⟨(hid c hc3).1, (hid c hc3).2.1⟩
    · have : c = ':' := by simpa using hc2
      subst this
      decide
  have hglobeq : ∀ k : Chars, globMatch ("validated_query:" ++ id ++ ":*").data k =
      ("validated_query:" ++ id ++ ":").data.isPrefixOf k := by
    intro k
    rw [hpat]
    exact globMatch_star_prefix _ k hplain
  have hpd : ("validated_query:" ++ id ++ ":").data =
      "validated_query:".data ++ (id.data ++ [':']) := by
    simp [String.data_append, List.append_assoc]
  refine ⟨rfl, ?_, ?_, ?_, ?_⟩
  · intro h2
    unfold redisLookup
    rw [hkv]
    have hfind : List.find?
        (fun e => e.key == ("validated_query:" ++ id ++ ":" ++ h2))
        (st.redisKv.filter
          (fun e => !globMatch ("validated_query:" ++ id ++ ":*").data e.key.data)) = none := by
      rw [List.find?_eq_none]
      intro e he hbeq
      rw [List.mem_filter] at he
      have hkey : e.key = "validated_query:" ++ id ++ ":" ++ h2 := eq_of_beq hbeq
      have hg : globMatch ("validated_query:" ++ id ++ ":*").data e.key.data = true := by
        rw [hglobeq, hkey, String.data_append]
        exact isPrefixOf_self_append _ _
      rw [hg] at he
      simp at he
    rw [hfind]
    rfl
  · intro q2 h2 e hmem hkey hq2 hne
    rw [hkv, List.mem_filter]
    refine ⟨hmem, ?_⟩
    have hkd : ("validated_query:" ++ q2 ++ ":" ++ h2).data =
        "validated_query:".data ++ (q2.data ++ (':' :: h2.data)) := by
      simp [String.data_append, List.append_assoc]
    rw [hglobeq, hkey, hkd, hpd, isPrefixOf_append_same]
    cases hb : (id.data ++ [':']).isPrefixOf (q2.data ++ ':' :: h2.data) with
    | false => rfl
    | true =>
      exfalso
      have heq : id.data = q2.data :=
        isPrefixOf_colon_structure id.data q2.data h2.data
          (fun c hc => (hid c hc).2.2) hq2 hb
      exact hne (congrArg String.mk heq).symm
  · intro p e hmem hkey
    rw [hkv, List.mem_filter]
    refine ⟨hmem, ?_⟩
    have hv : ∀ x y : Chars,
        List.isPrefixOf ("validated_query:".data ++ x) ("filter_options:".data ++ y) = false :=
      fun x y => rfl
    rw [hglobeq, hkey, hpd, String.data_append, hv]
    rfl
  · intro e
    rw [hkv, List.mem_filter, hglobeq]
    constructor
    · intro h
      exact ⟨h.1, by simpa using h.2⟩
    · intro h
      refine ⟨h.1, ?_⟩
      rw [h.2]
      rfl

/-- C3 witness: after one uncached execution of the witness query, the same
call is served from the cache with the same rows. -/
theorem executeValidatedQuery_cache_round_trip_witness :
    executeValidatedQuery envW (executeValidatedQuery envW stW "q1" []).2.1 "q1" [] =
      (Except.ok (rowsW, true), (executeValidatedQuery envW stW "q1" []).2.1, []) :=
  executeValidatedQuery_cache_round_trip envW stW "q1" [] rowsW
    (executeValidatedQuery envW stW "q1" []).2.1
    (executeValidatedQuery envW stW "q1" []).2.2 rfl rfl

/-- An analytics-classified catalogue row used by the warehouse witnesses. -/
def qA : ValidatedQuery :=
  ⟨"q2", "Q2", "ALL", "SELECT * FROM deliveries", "auto", "admin", true⟩

/-- The witness state holding the analytics query. -/
def stA : St := ⟨⟨[qA], [], []⟩, []⟩

/-- A witness environment with a warehouse configured but failing every
attempt, and a deliveries backend answering every SQL. -/
def envA : Env :=
  ⟨1700000000000, "public", true, fun _ _ => Except.error "warehouse down",
   fun _ => Except.ok rowsW, fun _ => Except.ok [], true, true, true⟩

/-- The warehouse-dialect rendering of the witness query. -/
def rsqlA : String :=
  applyRedshiftSchemaPrefix envA.schema
    (replacePlaceholdersForRedshift qA.sql_text (applyDefaultFilters envA.nowMs []))

/-- The standard rendering of the witness query. -/
def sqlA : String := replacePlaceholders qA.sql_text (applyDefaultFilters envA.nowMs [])

/-- C4 witness: with both warehouse attempts failing, the witness execution
returns the deliveries rows uncached after the two attempts and the backoff
wait. -/
theorem executeValidatedQuery_warehouse_fallback_witness :
    executeValidatedQuery envA stA "q2" [] =
      (Except.ok (rowsW, false),
       cacheResults envA stA qA.id (applyDefaultFilters envA.nowMs []) rowsW,
       [Call.redshift 1 rsqlA, Call.wait 2000, Call.redshift 2 rsqlA, Call.deliveries sqlA]) :=
  (executeValidatedQuery_warehouse_fallback envA stA "q2" [] qA rsqlA sqlA
    "warehouse down" "warehouse down" rfl rfl rfl rfl rfl rfl rfl rfl rfl).1 rowsW rfl

/-- C8 witness: the witness execution engages the warehouse first, and the
classification of the witness query is the marker-substring test. -/
theorem executeValidatedQuery_routing_witness :
    (executeValidatedQuery envA stA "q2" []).2.2.head? = some (Call.redshift 1 rsqlA) ∧
    usesAnalytics qA.sql_text =
      (strIncludes qA.sql_text "deliveries" || strIncludes qA.sql_text "businesses" ||
       strIncludes qA.sql_text "TO_CHAR" || strIncludes qA.sql_text "::numeric" ||
       strIncludes qA.sql_text "${schema}") :=
  ⟨(executeValidatedQuery_routing envA stA "q2" [] qA rsqlA sqlA
      rfl rfl rfl rfl rfl).2.2.2.2 rfl rfl,
   (executeValidatedQuery_routing envA stA "q2" [] qA rsqlA sqlA rfl rfl rfl rfl rfl).1⟩

/-- The witness state of the invalidation claim: one snapshot row and three
ephemeral entries across the namespaces. -/
def stC6 : St :=
  ⟨⟨[qW], [⟨"q1", 5, [], []⟩], []⟩,
   [⟨"validated_query:q1:aaa", rowsW, 7⟩, ⟨"validated_query:q2:bbb", [], 7⟩,
    ⟨"filter_options:region", [], 5⟩]⟩

/-- The witness catalogue patch: a new SQL template. -/
def patchC6 : QueryPatch := ⟨none, none, some "SELECT 2", none, none, none⟩

/-- C6 witness: updating the witness query keeps the snapshot rows, makes
its previously cached key miss, and keeps the other query id entry and the
filter-options entry. -/
theorem updateValidatedQuery_invalidation_frame_witness :
    (updateValidatedQuery envW stC6 "q1" patchC6).db.validated_results =
      stC6.db.validated_results ∧
    redisLookup (updateValidatedQuery envW stC6 "q1" patchC6)
      ("validated_query:" ++ "q1" ++ ":" ++ "aaa") = none ∧
    (⟨"validated_query:q2:bbb", [], 7⟩ : RedisEntry) ∈
      (updateValidatedQuery envW stC6 "q1" patchC6).redisKv ∧
    (⟨"filter_options:region", [], 5⟩ : RedisEntry) ∈
      (updateValidatedQuery envW stC6 "q1" patchC6).redisKv :=
  ⟨(updateValidatedQuery_invalidation_frame envW stC6 "q1" patchC6 (by decide)).1,
   (updateValidatedQuery_invalidation_frame envW stC6 "q1" patchC6 (by decide)).2.1 "aaa",
   (updateValidatedQuery_invalidation_frame envW stC6 "q1" patchC6 (by decide)).2.2.1
     "q2" "bbb" ⟨"validated_query:q2:bbb", [], 7⟩ (by decide) (by decide) (by decide) (by decide),
   (updateValidatedQuery_invalidation_frame envW stC6 "q1" patchC6 (by decide)).2.2.2.1
     "region" ⟨"filter_options:region", [], 5⟩ (by decide) (by decide)⟩

/-- Suffix test on strings. -/
def strEndsWith (s suffix : String) : Bool :=
  suffix.data.reverse.isPrefixOf s.data.reverse

/-- Appending a suffix makes the suffix test hold. -/
theorem strEndsWith_append (x suf : String) : strEndsWith (x ++ suf) suf = true := by
  unfold strEndsWith
  rw [String.data_append, List.reverse_append]
  exact isPrefixOf_self_append _ _

/-- Every backend interaction of testQuery carries the appended row cap
(waits carry none). -/
def callCapped : Call → Bool
  | Call.redshift _ s2 => strEndsWith s2 " LIMIT 100"
  | Call.deliveries s2 => strEndsWith s2 " LIMIT 100"
  | Call.main s2 => strEndsWith s2 " LIMIT 100"
  | Call.wait _ => true

/-- Every interaction list produced by the retry loop satisfies a predicate
holding on every warehouse attempt with the given SQL and on every wait. -/
theorem redshiftRetryGo_all_shape (env : Env) (s : String) (mr : Nat) (p : Call → Bool)
    (hrs : ∀ a, p (Call.redshift a s) = true) (hw : ∀ w, p (Call.wait w) = true) :
    ∀ rem attempt lastErr, (redshiftRetryGo env s mr attempt rem lastErr).2.all p = true := by
  intro rem
  induction rem with
  | zero =>
    intro attempt lastErr
    simp [redshiftRetryGo]
  | succ n ih =>
    intro attempt lastErr
    unfold redshiftRetryGo
    cases env.redshiftAttempt attempt s with
    | ok r => simp [hrs]
    | error e =>
      have hnext := ih (attempt + 1) (some e)
      have hwaits : (if attempt < mr then [Call.wait (2 ^ attempt * 1000)] else []).all p
          = true := by
        split <;> simp [hw]
      simp [hrs, List.all_append, hwaits, hnext]

/-- Every interaction of testRoute carries the row cap. -/
theorem testRoute_capped (env : Env) (sql : String) (filters : Filters) :
    (testRoute env sql filters).2.all callCapped = true := by
  unfold testRoute
  dsimp only []
  split
  · split
    · rcases hr : executeRedshiftQueryWithRetry env
          (applyRedshiftSchemaPrefix env.schema
            (replacePlaceholdersForRedshift sql filters) ++ " LIMIT 100") 2 with ⟨res, cs⟩
      have hcs : cs.all callCapped = true := by
        have h2 := redshiftRetryGo_all_shape env
          (applyRedshiftSchemaPrefix env.schema
            (replacePlaceholdersForRedshift sql filters) ++ " LIMIT 100") 2 callCapped
          (fun a => strEndsWith_append _ _) (fun w => rfl) 2 1 none
        have hr2 : redshiftRetryGo env
            (applyRedshiftSchemaPrefix env.schema
              (replacePlaceholdersForRedshift sql filters) ++ " LIMIT 100") 2 1 2 none =
            (res, cs) := hr
        rw [hr2] at h2
        exact h2
      cases res with
      | ok r =>
        dsimp only []
        exact hcs
      | error e =>
        dsimp only []
        simp [List.all_append, hcs, callCapped, strEndsWith_append]
    · simp [callCapped, strEndsWith_append]
  · simp [callCapped, strEndsWith_append]

/-- testQuery in terms of its routing: the outcome is the routed outcome
converted to the result shape and the interactions are those of the
routing. -/
theorem testQuery_eq_route (env : Env) (sql : String) (filters : Filters) :
    testQuery env sql filters =
      ((match (testRoute env sql (applyDefaultFilters env.nowMs filters)).1 with
        | Except.ok r => TestResult.ok r
        | Except.error m => TestResult.err m),
       (testRoute env sql (applyDefaultFilters env.nowMs filters)).2) := by
  unfold testQuery
  dsimp only []
  rcases h : testRoute env sql (applyDefaultFilters env.nowMs filters) with ⟨res, calls⟩
  cases res <;> rfl

/-- A witness environment whose main backend rejects every SQL. -/
def envErr : Env :=
  ⟨1700000000000, "public", false, fun _ _ => Except.error "no warehouse",
   fun _ => Except.ok [], fun _ => Except.error "boom", true, true, true⟩

/-- C10: testQuery never rejects — its outcome is always a success carrying
rows or a failure carrying the error message, namely the outcome of its
routing with the row cap appended to every executed SQL — while
executeValidatedQuery propagates a backend error to its caller, as the
witness environment shows. -/
theorem testQuery_total_capped :
    (∀ (env : Env) (sql : String) (filters : Filters),
      ((∃ r, (testQuery env sql filters).1 = TestResult.ok r) ∨
        (∃ m, (testQuery env sql filters).1 = TestResult.err m)) ∧
      (testQuery env sql filters).2.all callCapped = true ∧
      testQuery env sql filters =
        ((match (testRoute env sql (applyDefaultFilters env.nowMs filters)).1 with
          | Except.ok r => TestResult.ok r
          | Except.error m => TestResult.err m),
         (testRoute env sql (applyDefaultFilters env.nowMs filters)).2)) ∧
    executeValidatedQuery envErr stW "q1" [] =
      (Except.error "boom", stW, [Call.main "SELECT 1 AS c"]) ∧
    testQuery envErr "SELECT 1 AS c" [] =
      (TestResult.err "boom", [Call.main "SELECT 1 AS c LIMIT 100"]) := by
  refine ⟨?_, rfl, rfl⟩
  intro env sql filters
  have hq := testQuery_eq_route env sql filters
  refine ⟨?_, ?_, hq⟩
  · rw [hq]
    cases (testRoute env sql (applyDefaultFilters env.nowMs filters)).1 with
    | ok r => exact Or.inl ⟨r, rfl⟩
    | error m => exact Or.inr ⟨m, rfl⟩
  · rw [hq]
    exact testRoute_capped env sql (applyDefaultFilters env.nowMs filters)
